import Mathlib

/-!
Shallow embedding of `src/UNITS_storage_price_scraper.py` (class
`StoragePriceScraper`): the response parser `_parse_response`, the Mongo
work-queue operations (`_get_item_from_mongo`, `_update_tag`,
`_update_results`, the seeding loop in `main`), the request/retry loop
`_make_request`, the coordinator loop `scrape_zip_codes`, proxy rotation
`_get_next_proxy`, and email generation `_generate_random_email`.

External effects are abstracted so every definition is executable:
random draws become explicit oracle parameters, wall-clock time is a
rational parameter, the HTTP boundary is a per-attempt outcome list, and
JSON decoding is a `Body` that is either a decoded value or undecodable
text.  Numbers are modelled as rationals.
-/

set_option autoImplicit false

namespace Scraper

/-- JSON values as decoded by `json.loads`. -/
inductive Json where
  | null
  | bool (b : Bool)
  | num (q : ℚ)
  | str (s : String)
  | arr (xs : List Json)
  | obj (kvs : List (String × Json))

/-- Python truthiness of a decoded JSON value, as used by
`if data.get("success"):` in `_parse_response`. -/
def Json.truthy : Json → Bool
  | .null => false
  | .bool b => b
  | .num q => decide (q ≠ 0)
  | .str s => decide (s ≠ "")
  | .arr xs => !xs.isEmpty
  | .obj kvs => !kvs.isEmpty

/-- First-match key lookup in a decoded JSON object (Python `dict` keys are
unique, so first-match agrees with `dict` access). -/
def jlookup : List (String × Json) → String → Option Json
  | [], _ => none
  | (k, v) :: rest, key => if k = key then some v else jlookup rest key

/-- Python exceptions that the embedded fragments can raise. -/
inductive PyErr where
  | attributeError
  | typeError
  | keyError
deriving DecidableEq

/-- Substring test on strings (Python `pat in s` for `str`), via `splitOn`. -/
def strContains (s pat : String) : Bool :=
  if pat = "" then true else (s.splitOn pat).length != 1

/-- Python `key in j` for a decoded JSON value: key membership for objects,
element equality for arrays, substring test for strings, `TypeError`
otherwise. -/
def jContains (j : Json) (key : String) : Except PyErr Bool :=
  match j with
  | .obj kvs => .ok (jlookup kvs key).isSome
  | .arr xs => .ok (xs.any fun x => match x with | .str s => s == key | _ => false)
  | .str s => .ok (strContains s key)
  | _ => .error .typeError

/-- Python `j[key]` for a decoded JSON value: object lookup (raising
`KeyError` when absent), `TypeError` on any non-object. -/
def jIndex (j : Json) (key : String) : Except PyErr Json :=
  match j with
  | .obj kvs =>
    match jlookup kvs key with
    | some v => .ok v
    | none => .error .keyError
  | _ => .error .typeError

/-- The body of an HTTP response, as seen through `json.loads`: either a
decoded JSON value or undecodable text (raising `JSONDecodeError`). -/
inductive Body where
  | decodable (j : Json)
  | undecodable (s : String)

/-- The `raw_response` field of the dictionary `_parse_response` returns:
the decoded payload on decode success, the original text on decode
failure. -/
inductive RawPayload where
  | jsonVal (j : Json)
  | text (s : String)

/-- The dictionary `_parse_response` returns, with `time.time()` modelled
as a rational parameter. -/
structure ParseResult where
  zip_code : String
  total_price : Option Json
  raw_response : RawPayload
  timestamp : ℚ

/-- The extraction step of `_parse_response` on a decoded top-level object:
`if data.get("success"):` then the guard
`"data" in data and "pricing" in data["data"] and "total" in
data["data"]["pricing"]`, short-circuit as in Python, then
`data["data"]["pricing"]["total"]`.  Evaluating the guard itself raises
(e.g. `TypeError`) when an intermediate value is not a container. -/
def extractTotal (kvs : List (String × Json)) : Except PyErr (Option Json) :=
  if ((jlookup kvs "success").getD Json.null).truthy then
    match jlookup kvs "data" with
    | none => .ok none
    | some d =>
      match jContains d "pricing" with
      | .error e => .error e
      | .ok false => .ok none
      | .ok true =>
        match jIndex d "pricing" with
        | .error e => .error e
        | .ok p =>
          match jContains p "total" with
          | .error e => .error e
          | .ok false => .ok none
          | .ok true =>
            match jIndex p "total" with
            | .error e => .error e
            | .ok v => .ok (some v)
  else .ok none

/-- `_parse_response(response_text, zip_code)`.  Only `JSONDecodeError` is
caught by the source's `try`/`except`; `data.get("success")` on a decoded
non-object raises `AttributeError`, which propagates to the caller. -/
def parseResponse (body : Body) (zip : String) (now : ℚ) : Except PyErr ParseResult :=
  match body with
  | .undecodable s => .ok ⟨zip, none, .text s, now⟩
  | .decodable (Json.obj kvs) =>
    match extractTotal kvs with
    | .error e => .error e
    | .ok tp => .ok ⟨zip, tp, .jsonVal (Json.obj kvs), now⟩
  | .decodable _ => .error .attributeError

example :
    parseResponse
      (.decodable (Json.obj
        [("success", Json.bool true),
         ("data", Json.obj [("pricing", Json.obj [("total", Json.num (142.5 : ℚ))])])]))
      "78240" 0
      = .ok ⟨"78240", some (Json.num (142.5 : ℚ)),
          .jsonVal (Json.obj
            [("success", Json.bool true),
             ("data", Json.obj [("pricing", Json.obj [("total", Json.num (142.5 : ℚ))])])]),
          0⟩ := by
  rfl

example :
    parseResponse (.decodable (Json.obj [("success", Json.bool true)])) "78240" 0
      = .ok ⟨"78240", none, .jsonVal (Json.obj [("success", Json.bool true)]), 0⟩ := by
  rfl

example :
    parseResponse (.decodable (Json.arr [])) "78240" 0 = .error .attributeError := by
  rfl

example :
    parseResponse (.undecodable "<html>") "78240" 0
      = .ok ⟨"78240", none, .text "<html>", 0⟩ := by
  rfl

/-! ## The zip-code collection (Mongo work-queue store) -/

/-- The `tag` field of a zip-code document: `False` (pending),
`"progress"` (claimed), `True` (processed). -/
inductive Tag where
  | f
  | progress
  | t
deriving DecidableEq

/-- One document of the `zipcodes` collection: `_id`, `zip_code`, `tag`,
and the fields `_update_results` stores (packaged as `result`). -/
structure Item where
  id : Nat
  zip : String
  tag : Tag
  result : Option ParseResult

/-- The `zipcodes` collection; `nextId` models `_id` generation by
`insert_one`. -/
structure Store where
  items : List Item
  nextId : Nat

/-- `update_one({"_id": i}, {"$set": {"tag": tg}})`: Mongo updates the one
matching document (first match; `_id` is unique). -/
def setTagList : List Item → Nat → Tag → List Item
  | [], _, _ => []
  | it :: rest, i, tg =>
    if it.id = i then { it with tag := tg } :: rest else it :: setTagList rest i tg

def Store.setTag (s : Store) (i : Nat) (tg : Tag) : Store :=
  { s with items := setTagList s.items i tg }

/-- `_update_tag(input_id)`: sets `tag` to `True` on the matching document. -/
def updateTag (s : Store) (i : Nat) : Store :=
  s.setTag i Tag.t

def updateResultsList : List Item → Nat → ParseResult → List Item
  | [], _, _ => []
  | it :: rest, i, r =>
    if it.id = i then { it with tag := Tag.t, result := some r } :: rest
    else it :: updateResultsList rest i r

/-- `_update_results(input_id, results)`: `$set`s the parsed fields together
with `tag: True` on the matching document. -/
def updateResults (s : Store) (i : Nat) (r : ParseResult) : Store :=
  { s with items := updateResultsList s.items i r }

/-- `_get_item_from_mongo()`: `find_one({"tag": False})` and claim it by
setting its `tag` to `"progress"`; otherwise fall back to
`find_one({"tag": "progress"})`; `None` when both queries are empty. -/
def claimNext (s : Store) : Option Item × Store :=
  match s.items.find? (fun it => it.tag == Tag.f) with
  | some it => (some it, s.setTag it.id Tag.progress)
  | none => (s.items.find? (fun it => it.tag == Tag.progress), s)

def lookupItem (s : Store) (i : Nat) : Option Item :=
  s.items.find? (fun it => it.id == i)

def lookupTag (s : Store) (i : Nat) : Option Tag :=
  (lookupItem s i).map (·.tag)

def lookupResult (s : Store) (i : Nat) : Option (Option ParseResult) :=
  (lookupItem s i).map (·.result)

/-- `find_one({"zip_code": zip_code})` returns a document, i.e. the key is
already present. -/
def Store.hasZip (s : Store) (z : String) : Bool :=
  s.items.any (fun it => it.zip == z)

/-- One iteration of the seeding loop in `main`: `insert_one({"zip_code":
zip_code, "tag": False})` only when `find_one({"zip_code": zip_code})`
finds nothing. -/
def seedOne (s : Store) (z : String) : Store :=
  if s.hasZip z then s
  else { items := s.items ++ [⟨s.nextId, z, Tag.f, none⟩], nextId := s.nextId + 1 }

/-- The seeding loop of `main` over the input key list. -/
def seed (s : Store) (keys : List String) : Store :=
  keys.foldl seedOne s

/-- Number of documents carrying a given zip code. -/
def countZip (s : Store) (z : String) : Nat :=
  s.items.countP (fun it => it.zip == z)

/-! ### Store lemmas -/

theorem find?_setTagList_self (l : List Item) (i : Nat) (tg : Tag) :
    (setTagList l i tg).find? (fun it => it.id == i)
      = (l.find? (fun it => it.id == i)).map (fun it => { it with tag := tg }) := by
  induction l with
  | nil => rfl
  | cons it rest ih =>
    by_cases h : it.id = i
    · simp [setTagList, h, List.find?_cons]
    · simp [setTagList, h, List.find?_cons, ih]

theorem lookupItem_isSome_of_mem {s : Store} {it : Item} (h : it ∈ s.items) :
    (lookupItem s it.id).isSome := by
  exact List.find?_isSome.mpr ⟨it, h, by simp⟩

theorem lookupTag_setTag (s : Store) (i : Nat) (tg : Tag)
    (h : (lookupItem s i).isSome) :
    lookupTag (s.setTag i tg) i = some tg := by
  obtain ⟨a, ha⟩ := Option.isSome_iff_exists.mp h
  unfold lookupTag lookupItem Store.setTag at *
  rw [find?_setTagList_self, ha]
  rfl

theorem hasZip_seedOne_self (s : Store) (z : String) :
    (seedOne s z).hasZip z = true := by
  unfold seedOne
  by_cases h : s.hasZip z
  · simp [h]
  · simp only [h, if_neg, Bool.false_eq_true, if_false]
    unfold Store.hasZip
    simp

theorem hasZip_seedOne_mono (s : Store) (z k : String) (h : s.hasZip z = true) :
    (seedOne s k).hasZip z = true := by
  unfold seedOne
  by_cases hk : s.hasZip k
  · simp [hk, h]
  · simp only [hk, Bool.false_eq_true, if_false]
    unfold Store.hasZip at *
    simp [List.any_append, h]

theorem seedOne_of_hasZip {s : Store} {z : String} (h : s.hasZip z = true) :
    seedOne s z = s := by
  simp [seedOne, h]

theorem seed_preserves_hasZip (keys : List String) (s : Store) (z : String)
    (h : s.hasZip z = true) : (seed s keys).hasZip z = true := by
  induction keys generalizing s with
  | nil => exact h
  | cons k rest ih => exact ih (seedOne s k) (hasZip_seedOne_mono s z k h)

theorem mem_keys_hasZip (keys : List String) (s : Store) (z : String)
    (h : z ∈ keys) : (seed s keys).hasZip z = true := by
  induction keys generalizing s with
  | nil => cases h
  | cons k rest ih =>
    rcases List.mem_cons.mp h with h1 | h2
    · subst h1
      exact seed_preserves_hasZip rest (seedOne s z) z (hasZip_seedOne_self s z)
    · exact ih (seedOne s k) h2

theorem seed_fixed (keys : List String) (s : Store)
    (h : ∀ z ∈ keys, s.hasZip z = true) : seed s keys = s := by
  induction keys with
  | nil => rfl
  | cons k rest ih =>
    have hk : seedOne s k = s := seedOne_of_hasZip (h k (List.mem_cons_self k rest))
    show seed (seedOne s k) rest = s
    rw [hk]
    exact ih (fun z hz => h z (List.mem_cons_of_mem k hz))

/-- C5: `claim_next` (`_get_item_from_mongo`) returns a `Pending` (`tag:
False`) item whose store state becomes `InProgress` (`tag: "progress"`)
whenever one exists; with no `Pending` item but some `InProgress` item it
returns such an item and leaves the store unchanged; and it returns `None`
exactly when no item is `Pending` or `InProgress`. -/
theorem c5_claim_next_spec (s : Store) :
    ((∃ it ∈ s.items, it.tag = Tag.f) →
      ∃ it, (claimNext s).1 = some it ∧ it ∈ s.items ∧ it.tag = Tag.f ∧
        lookupTag (claimNext s).2 it.id = some Tag.progress) ∧
    ((∀ it ∈ s.items, it.tag ≠ Tag.f) → (∃ it ∈ s.items, it.tag = Tag.progress) →
      ∃ it, (claimNext s).1 = some it ∧ it ∈ s.items ∧ it.tag = Tag.progress ∧
        (claimNext s).2 = s) ∧
    ((claimNext s).1 = none ↔ ∀ it ∈ s.items, it.tag ≠ Tag.f ∧ it.tag ≠ Tag.progress) := by
  refine ⟨?_, ?_, ?_⟩
  · rintro ⟨it0, hmem0, htag0⟩
    have hsome : (s.items.find? (fun it => it.tag == Tag.f)).isSome :=
      List.find?_isSome.mpr ⟨it0, hmem0, by simp [htag0]⟩
    obtain ⟨it, hfind⟩ := Option.isSome_iff_exists.mp hsome
    have htag : it.tag = Tag.f := by simpa using List.find?_some hfind
    have hmem : it ∈ s.items := List.mem_of_find?_eq_some hfind
    refine ⟨it, ?_, hmem, htag, ?_⟩
    · simp [claimNext, hfind]
    · have h2 : (claimNext s).2 = s.setTag it.id Tag.progress := by simp [claimNext, hfind]
      rw [h2]
      exact lookupTag_setTag s it.id Tag.progress (lookupItem_isSome_of_mem hmem)
  · intro hno hex
    have h1 : s.items.find? (fun it => it.tag == Tag.f) = none :=
      List.find?_eq_none.mpr (fun it hm => by simpa using hno it hm)
    obtain ⟨it0, hmem0, htag0⟩ := hex
    have hsome : (s.items.find? (fun it => it.tag == Tag.progress)).isSome :=
      List.find?_isSome.mpr ⟨it0, hmem0, by simp [htag0]⟩
    obtain ⟨it, hfind⟩ := Option.isSome_iff_exists.mp hsome
    refine ⟨it, ?_, List.mem_of_find?_eq_some hfind,
      by simpa using List.find?_some hfind, ?_⟩
    · simp [claimNext, h1, hfind]
    · simp [claimNext, h1]
  · constructor
    · intro h
      cases hf : s.items.find? (fun it => it.tag == Tag.f) with
      | some it => simp [claimNext, hf] at h
      | none =>
        have h2 : s.items.find? (fun it => it.tag == Tag.progress) = none := by
          simpa [claimNext, hf] using h
        intro it hm
        exact ⟨by simpa using List.find?_eq_none.mp hf it hm,
               by simpa using List.find?_eq_none.mp h2 it hm⟩
    · intro h
      have h1 : s.items.find? (fun it => it.tag == Tag.f) = none :=
        List.find?_eq_none.mpr (fun it hm => by simpa using (h it hm).1)
      have h2 : s.items.find? (fun it => it.tag == Tag.progress) = none :=
        List.find?_eq_none.mpr (fun it hm => by simpa using (h it hm).2)
      simp [claimNext, h1, h2]

def demoStoreC5 : Store :=
  ⟨[⟨0, "78240", Tag.f, none⟩, ⟨1, "78241", Tag.progress, none⟩], 2⟩

/-- Witness for C5 at a concrete two-item store. -/
theorem c5_claim_next_spec_witness :
    ∃ it, (claimNext demoStoreC5).1 = some it ∧ it ∈ demoStoreC5.items ∧
      it.tag = Tag.f ∧ lookupTag (claimNext demoStoreC5).2 it.id = some Tag.progress :=
  (c5_claim_next_spec demoStoreC5).1 ⟨⟨0, "78240", Tag.f, none⟩, List.Mem.head _, rfl⟩

/-- C7: the seeding loop of `main` is idempotent: a key already present is
never inserted again, seeding a fresh key twice yields exactly one document
for it, and re-running `seed` with the same key list changes nothing. -/
theorem c7_seed_idempotent (s : Store) (keys : List String) :
    (∀ z, s.hasZip z = true → seedOne s z = s) ∧
    (∀ z, s.hasZip z = false → countZip (seed s [z, z]) z = 1) ∧
    seed (seed s keys) keys = seed s keys := by
  refine ⟨fun z hz => seedOne_of_hasZip hz, ?_, ?_⟩
  · intro z hz
    have h1 : (seedOne s z).hasZip z = true := hasZip_seedOne_self s z
    have h2 : seed s [z, z] = seedOne s z := by
      show seedOne (seedOne s z) z = seedOne s z
      exact seedOne_of_hasZip h1
    rw [h2]
    have h0 : s.items.countP (fun it => it.zip == z) = 0 := by
      rw [List.countP_eq_zero]
      intro a ha
      have := List.any_eq_false.mp hz a ha
      simpa using this
    unfold seedOne
    rw [if_neg (by simp [hz])]
    unfold countZip
    simp [List.countP_append, h0]
  · exact seed_fixed keys (seed s keys) (fun z hz => mem_keys_hasZip keys s z hz)

/-- Witness for C7: seeding `"78240"` twice into an empty store leaves
exactly one document for it. -/
theorem c7_seed_idempotent_witness :
    countZip (seed ⟨[], 0⟩ ["78240", "78240"]) "78240" = 1 :=
  (c7_seed_idempotent ⟨[], 0⟩ []).2.1 "78240" rfl

/-! ## The request executor (`_make_request`) -/

/-- What one `session.post` yields at the HTTP boundary: a response with a
status code, the presence of the `'"limit_reached"'` marker in its text,
and its body; or a transport-level exception. -/
inductive AttemptOutcome where
  | response (status : Nat) (limitMarker : Bool) (body : Body)
  | exc

/-- Observable events of one `_make_request` invocation: an issued POST
(with its attempt index) and a `_refresh_session` call. -/
inductive Event where
  | call (attempt : Nat)
  | refresh
deriving DecidableEq

/-- Process-lifetime state touched by `_make_request`: the store, the
counters `successful_requests` and `failed_requests`, and a session
generation counter stepped by `_refresh_session`. -/
structure ExecState where
  store : Store
  successful : Nat
  failed : Nat
  sessionGen : Nat

/-- The attempt loop of `_make_request` (`for attempt in range(retry_count)`),
one oracle entry per attempt.  Per attempt: issue the POST; on status 200
without the rate-limit marker increment `successful_requests`, call
`_update_tag`, parse, call `_update_results` and return — a parse exception
escapes to the surrounding generic `except` and the loop continues; on 403
call `_refresh_session` when `attempt == 1`; any other status or a transport
exception just continues.  When the outcomes are exhausted: increment
`failed_requests`, call `_update_tag`, return `None`. -/
def makeRequestGo (i : Nat) (zip : String) (now : ℚ) :
    List AttemptOutcome → Nat → ExecState → List Event →
      Option ParseResult × ExecState × List Event
  | [], _, st, evs =>
    (none, { st with failed := st.failed + 1, store := updateTag st.store i }, evs)
  | o :: rest, attempt, st, evs =>
    match o with
    | .exc => makeRequestGo i zip now rest (attempt + 1) st (evs ++ [.call attempt])
    | .response status limitMarker body =>
      if status == 200 && !limitMarker then
        let st' : ExecState :=
          { st with successful := st.successful + 1, store := updateTag st.store i }
        match parseResponse body zip now with
        | .ok r =>
          (some r, { st' with store := updateResults st'.store i r }, evs ++ [.call attempt])
        | .error _ => makeRequestGo i zip now rest (attempt + 1) st' (evs ++ [.call attempt])
      else if status == 403 then
        if attempt == 1 then
          makeRequestGo i zip now rest (attempt + 1)
            { st with sessionGen := st.sessionGen + 1 } (evs ++ [.call attempt, .refresh])
        else
          makeRequestGo i zip now rest (attempt + 1) st (evs ++ [.call attempt])
      else
        makeRequestGo i zip now rest (attempt + 1) st (evs ++ [.call attempt])

/-- `_make_request(id_zip_code, zip_code, retry_count)`: run the attempt
loop from attempt 0 with an empty event trace. -/
def makeRequest (i : Nat) (zip : String) (now : ℚ) (outcomes : List AttemptOutcome)
    (st : ExecState) : Option ParseResult × ExecState × List Event :=
  makeRequestGo i zip now outcomes 0 st []

/-- Number of POSTs issued before the first `_refresh_session` call. -/
def callsBeforeRefresh : List Event → Nat
  | [] => 0
  | .refresh :: _ => 0
  | .call _ :: rest => callsBeforeRefresh rest + 1

/-- Number of `_refresh_session` calls in a trace. -/
def refreshCount (evs : List Event) : Nat :=
  evs.countP (fun e => e == Event.refresh)

/-- The success classification of `_make_request`: status 200 and no
`'"limit_reached"'` marker in the response text. -/
def isSuccessOutcome : AttemptOutcome → Bool
  | .response status limitMarker _ => status == 200 && !limitMarker
  | .exc => false

def out403 : AttemptOutcome := .response 403 false (.undecodable "Forbidden")

def outSuccessNoPrice : AttemptOutcome :=
  .response 200 false (.decodable (Json.obj [("success", Json.bool true)]))

def st403 : ExecState := ⟨⟨[⟨0, "78241", Tag.progress, none⟩], 1⟩, 0, 0, 0⟩

example :
    (makeRequest 0 "78241" 0 [out403, out403] st403).2.2
      = [.call 0, .call 1, .refresh] := by rfl

example : (makeRequest 0 "78241" 0 [out403, out403] st403).2.1.failed = 1 := by rfl

example :
    lookupTag (makeRequest 0 "78240" 0 [outSuccessNoPrice] st403).2.1.store 0
      = some Tag.t := by rfl

/-- C2 as stated is false: with `retry_count = 2` and both attempts
returning 403, the single `_refresh_session` call (guarded by
`attempt == 1`) happens during the last attempt, after the second POST —
not after the first attempt and before the next one begins. -/
theorem c2_refresh_counterexample :
    ¬ callsBeforeRefresh (makeRequest 0 "78241" 0 [out403, out403] st403).2.2 = 1 ∧
    callsBeforeRefresh (makeRequest 0 "78241" 0 [out403, out403] st403).2.2 = 2 ∧
    refreshCount (makeRequest 0 "78241" 0 [out403, out403] st403).2.2 = 1 := by
  refine ⟨?_, rfl, rfl⟩
  decide

/-- C2 amended: with `retry_count = 2` and two 403 responses, the session
refresh fires exactly once, during the second (final) attempt after its
POST; the item is then tagged processed, `failed_requests` increments by 1,
and `None` is returned. -/
theorem c2_refresh_amended (i : Nat) (zip : String) (now : ℚ) (st : ExecState) :
    makeRequestGo i zip now [out403, out403] 0 st []
      = (none,
         { st with failed := st.failed + 1, sessionGen := st.sessionGen + 1,
                   store := updateTag st.store i },
         [.call 0, .call 1, .refresh]) := by
  cases st
  rfl

/-- C3 as stated is false: after exhausting retries the item carries the
same store tag (`True`, via the same `_update_tag` call) as an item whose
request succeeded — the store has no `Failed` state distinct from `Done`. -/
theorem c3_failed_counterexample :
    lookupTag (makeRequest 0 "78241" 0 [out403, out403] st403).2.1.store 0
      = lookupTag (makeRequest 0 "78240" 0 [outSuccessNoPrice] st403).2.1.store 0 ∧
    lookupTag (makeRequest 0 "78241" 0 [out403, out403] st403).2.1.store 0
      = some Tag.t := by
  exact ⟨rfl, rfl⟩

/-- C3 amended: when every attempt fails the success classification,
`_make_request` returns `None`, increments `failed_requests` by exactly 1,
leaves `successful_requests` unchanged, and persists the item with the
terminal `tag: True` via `_update_tag` — the same marker the success path
writes, not a distinct `Failed` state. -/
theorem c3_exhausted_amended (i : Nat) (zip : String) (now : ℚ)
    (outcomes : List AttemptOutcome) (attempt : Nat) (evs : List Event)
    (st : ExecState) (h : ∀ o ∈ outcomes, isSuccessOutcome o = false) :
    (makeRequestGo i zip now outcomes attempt st evs).1 = none ∧
    (makeRequestGo i zip now outcomes attempt st evs).2.1.failed = st.failed + 1 ∧
    (makeRequestGo i zip now outcomes attempt st evs).2.1.successful = st.successful ∧
    (makeRequestGo i zip now outcomes attempt st evs).2.1.store = updateTag st.store i := by
  induction outcomes generalizing attempt st evs with
  | nil => exact ⟨rfl, rfl, rfl, rfl⟩
  | cons o rest ih =>
    have ho := h o (List.mem_cons_self o rest)
    have hrest : ∀ o ∈ rest, isSuccessOutcome o = false :=
      fun o hm => h o (List.mem_cons_of_mem _ hm)
    cases o with
    | exc =>
      simpa only [makeRequestGo] using ih (attempt + 1) (evs ++ [.call attempt]) st hrest
    | response status lm body =>
      have hc : (status == 200 && !lm) = false := ho
      by_cases h403 : (status == 403) = true
      · by_cases h1 : (attempt == 1) = true
        · simpa only [makeRequestGo, hc, h403, h1, Bool.false_eq_true, if_false, if_true]
            using ih (attempt + 1) (evs ++ [.call attempt, .refresh])
              { st with sessionGen := st.sessionGen + 1 } hrest
        · rw [Bool.not_eq_true] at h1
          simpa [makeRequestGo, hc, h403, h1]
            using ih (attempt + 1) (evs ++ [.call attempt]) st hrest
      · rw [Bool.not_eq_true] at h403
        simpa [makeRequestGo, hc, h403]
          using ih (attempt + 1) (evs ++ [.call attempt]) st hrest

/-- Witness for the amended C3: the two-403 run on a concrete store. -/
theorem c3_exhausted_amended_witness :
    (makeRequestGo 0 "78241" 0 [out403, out403] 0 st403 []).1 = none ∧
    (makeRequestGo 0 "78241" 0 [out403, out403] 0 st403 []).2.1.failed
      = st403.failed + 1 ∧
    (makeRequestGo 0 "78241" 0 [out403, out403] 0 st403 []).2.1.successful
      = st403.successful ∧
    (makeRequestGo 0 "78241" 0 [out403, out403] 0 st403 []).2.1.store
      = updateTag st403.store 0 :=
  c3_exhausted_amended 0 "78241" 0 [out403, out403] 0 [] st403 (by decide)

/-- Whether a decoded JSON value is an object. -/
def Json.isObj : Json → Bool
  | .obj _ => true
  | _ => false

theorem lookupResult_updateTag (s : Store) (i : Nat) :
    lookupResult (updateTag s i) i = lookupResult s i := by
  unfold lookupResult lookupItem updateTag Store.setTag
  rw [find?_setTagList_self]
  cases s.items.find? (fun it => it.id == i) <;> rfl

/-- C10: a 200 response without the rate-limit marker whose body decodes to
a non-object makes `_parse_response` raise `AttributeError` instead of
returning a result; the attempt has already incremented
`successful_requests` and tagged the item processed via `_update_tag`, no
result is persisted (`_update_results` is skipped, the stored result is
unchanged), and the exception is swallowed by the generic `except` so the
attempt loop continues. -/
theorem c10_nonobject_parse (i : Nat) (zip : String) (now : ℚ) (j : Json)
    (hj : j.isObj = false) (rest : List AttemptOutcome) (attempt : Nat)
    (st : ExecState) (evs : List Event) :
    parseResponse (.decodable j) zip now = .error .attributeError ∧
    makeRequestGo i zip now (.response 200 false (.decodable j) :: rest) attempt st evs
      = makeRequestGo i zip now rest (attempt + 1)
          { st with successful := st.successful + 1, store := updateTag st.store i }
          (evs ++ [.call attempt]) ∧
    lookupResult (updateTag st.store i) i = lookupResult st.store i := by
  have hp : parseResponse (.decodable j) zip now = .error .attributeError := by
    cases j with
    | obj kvs => simp [Json.isObj] at hj
    | null => rfl
    | bool b => rfl
    | num q => rfl
    | str s => rfl
    | arr xs => rfl
  refine ⟨hp, ?_, lookupResult_updateTag st.store i⟩
  simp only [makeRequestGo, hp]
  rfl

/-- Witness for C10: a body decoding to an empty JSON array. -/
theorem c10_nonobject_parse_witness :
    parseResponse (.decodable (Json.arr [])) "78241" 0 = .error .attributeError ∧
    makeRequestGo 0 "78241" 0 [.response 200 false (.decodable (Json.arr [])), out403]
        0 st403 []
      = makeRequestGo 0 "78241" 0 [out403] 1
          { st403 with successful := st403.successful + 1,
                       store := updateTag st403.store 0 }
          ([] ++ [.call 0]) ∧
    lookupResult (updateTag st403.store 0) 0 = lookupResult st403.store 0 :=
  c10_nonobject_parse 0 "78241" 0 (Json.arr []) rfl [out403] 0 st403 []

/-! ## The coordinator loop (`scrape_zip_codes`) -/

theorem claimNext_fst_none {s : Store} (h : (claimNext s).1 = none) :
    (claimNext s).2 = s ∧ ∀ it ∈ s.items, it.tag = Tag.t := by
  cases hf : s.items.find? (fun it => it.tag == Tag.f) with
  | some it => simp [claimNext, hf] at h
  | none =>
    have h2 : s.items.find? (fun it => it.tag == Tag.progress) = none := by
      simpa [claimNext, hf] using h
    refine ⟨by simp [claimNext, hf], fun it hm => ?_⟩
    have hnf := List.find?_eq_none.mp hf it hm
    have hnp := List.find?_eq_none.mp h2 it hm
    cases h3 : it.tag with
    | f => rw [h3] at hnf; simp at hnf
    | progress => rw [h3] at hnp; simp at hnp
    | t => rfl

/-- The `while` loop of `scrape_zip_codes`: call `_get_item_from_mongo`,
check the loop condition (a record was returned and its `zip_code` is
truthy), run `_make_request` on it, repeat.  `fuel` bounds the number of
iterations; the Bool is `true` exactly when the loop ended because the
claim returned `None` (the run completed). -/
def scrapeLoop (oracle : Nat → List AttemptOutcome) (now : ℚ) :
    Nat → Nat → ExecState → ExecState × Bool
  | 0, _, st => (st, false)
  | fuel + 1, i, st =>
    match (claimNext st.store).1 with
    | none => ({ st with store := (claimNext st.store).2 }, true)
    | some item =>
      if item.zip = "" then ({ st with store := (claimNext st.store).2 }, false)
      else
        scrapeLoop oracle now fuel (i + 1)
          (makeRequestGo item.id item.zip now (oracle i) 0
            { st with store := (claimNext st.store).2 } []).2.1

/-- C6: when a run of `scrape_zip_codes` ends because `_get_item_from_mongo`
returned `None`, every item in the store carries the terminal processed tag
— none is left `Pending` (`tag: False`) or `InProgress` (`tag:
"progress"`). -/
theorem c6_completed_all_processed (oracle : Nat → List AttemptOutcome) (now : ℚ)
    (fuel i : Nat) (st st' : ExecState)
    (h : scrapeLoop oracle now fuel i st = (st', true)) :
    ∀ it ∈ st'.store.items, it.tag = Tag.t := by
  induction fuel generalizing i st with
  | zero =>
    rw [scrapeLoop, Prod.mk.injEq] at h
    exact absurd h.2 (by simp)
  | succ fuel ih =>
    rw [scrapeLoop] at h
    cases hc : (claimNext st.store).1 with
    | none =>
      rw [hc] at h
      rw [Prod.mk.injEq] at h
      obtain ⟨hst, -⟩ := h
      obtain ⟨hsame, htags⟩ := claimNext_fst_none hc
      rw [← hst]
      intro it hm
      rw [hsame] at hm
      exact htags it hm
    | some item =>
      rw [hc] at h
      dsimp only at h
      by_cases hz : item.zip = ""
      · rw [if_pos hz, Prod.mk.injEq] at h
        exact absurd h.2 (by simp)
      · rw [if_neg hz] at h
        exact ih (i + 1) _ h

def storeC6 : Store := ⟨[⟨0, "78240", Tag.f, none⟩], 1⟩

def stC6 : ExecState := ⟨storeC6, 0, 0, 0⟩

def oracleC6 : Nat → List AttemptOutcome := fun _ => [outSuccessNoPrice]

/-- The document left after the concrete C6 run: claimed, fetched
successfully, result stored, tag terminal. -/
def itemC6final : Item :=
  ⟨0, "78240", Tag.t,
   some ⟨"78240", none, .jsonVal (Json.obj [("success", Json.bool true)]), 0⟩⟩

/-- Witness for C6: a one-item store run to completion in two iterations. -/
theorem c6_completed_all_processed_witness : itemC6final.tag = Tag.t :=
  c6_completed_all_processed oracleC6 0 2 1 stC6
    (scrapeLoop oracleC6 0 2 1 stC6).1 rfl itemC6final
    (show itemC6final ∈ [itemC6final] from List.Mem.head _)

/-! ## Email generation (`_generate_random_email`) -/

/-- `_generate_random_email`, with the random draws (one candidate
`username@domain` string per strategy invocation) supplied as an oracle
list and `used_emails` as a list.  The source retries by unconditional
recursion whenever the candidate is in `used_emails`; here each retry
consumes one oracle entry, and an exhausted oracle (`none`) marks a run of
retries that never found a fresh address.  On success the address is added
to the used set and returned together with the remaining oracle. -/
def genEmail : List String → List String → Option (String × List String × List String)
  | [], _ => none
  | c :: rest, used =>
    if c ∈ used then genEmail rest used
    else some (c, rest, c :: used)

/-- `n` successive generator calls, threading the oracle and `used_emails`;
stops early when a call fails to terminate (oracle exhausted). -/
def genEmails : Nat → List String → List String → List String
  | 0, _, _ => []
  | n + 1, oracle, used =>
    match genEmail oracle used with
    | none => []
    | some (e, rest, used') => e :: genEmails n rest used'

/-- Number of candidate draws (recursive `_generate_random_email` calls)
one invocation makes before returning or exhausting the oracle. -/
def genEmailDraws : List String → List String → Nat
  | [], _ => 0
  | c :: rest, used => if c ∈ used then genEmailDraws rest used + 1 else 1

theorem genEmail_fresh :
    ∀ (oracle used : List String) (e : String) (rest used' : List String),
      genEmail oracle used = some (e, rest, used') → e ∉ used ∧ used' = e :: used := by
  intro oracle
  induction oracle with
  | nil => intro used e rest used' h; cases h
  | cons c tl ih =>
    intro used e rest used' h
    by_cases hc : c ∈ used
    · rw [genEmail, if_pos hc] at h
      exact ih used e rest used' h
    · rw [genEmail, if_neg hc] at h
      simp only [Option.some.injEq, Prod.mk.injEq] at h
      obtain ⟨he, hrest, hused⟩ := h
      subst he
      exact ⟨hc, hused.symm⟩

theorem genEmails_fresh_nodup (n : Nat) :
    ∀ (oracle used : List String),
      (∀ e ∈ genEmails n oracle used, e ∉ used) ∧ (genEmails n oracle used).Nodup := by
  induction n with
  | zero => intro oracle used; simp [genEmails]
  | succ n ih =>
    intro oracle used
    cases hg : genEmail oracle used with
    | none => simp [genEmails, hg]
    | some tr =>
      obtain ⟨e, rest, used'⟩ := tr
      obtain ⟨hfresh, hused'⟩ := genEmail_fresh oracle used e rest used' hg
      subst hused'
      have htail := ih rest (e :: used)
      constructor
      · intro x hx
        rw [genEmails, hg] at hx
        rcases List.mem_cons.mp hx with h1 | h2
        · subst h1; exact hfresh
        · have hx2 := htail.1 x h2
          exact fun hmem => hx2 (List.mem_cons_of_mem e hmem)
      · rw [genEmails, hg]
        refine List.nodup_cons.mpr ⟨?_, htail.2⟩
        intro hmem
        exact htail.1 e hmem (List.mem_cons_self e used)

/-- C8: every address `_generate_random_email` returns is fresh — a
candidate colliding with an already-issued address is never returned, the
returned address is recorded in `used_emails`, and `n` successive calls
yield `n` pairwise-distinct addresses none of which was previously
issued. -/
theorem c8_email_unique :
    (∀ (oracle used : List String) (e : String) (rest used' : List String),
      genEmail oracle used = some (e, rest, used') → e ∉ used ∧ used' = e :: used) ∧
    (∀ (n : Nat) (oracle used : List String),
      (∀ e ∈ genEmails n oracle used, e ∉ used) ∧ (genEmails n oracle used).Nodup) :=
  ⟨genEmail_fresh, genEmails_fresh_nodup⟩

/-- Witness for C8: a colliding first draw is retried, and the second draw
is returned and recorded. -/
theorem c8_email_unique_witness :
    ("b@x.com" ∉ ["a@x.com"]) ∧
      ["b@x.com", "a@x.com"] = "b@x.com" :: ["a@x.com"] :=
  c8_email_unique.1 ["a@x.com", "b@x.com"] ["a@x.com"] "b@x.com" [] ["b@x.com", "a@x.com"] rfl

theorem genEmailDraws_replicate (n : Nat) :
    genEmailDraws (List.replicate n "x@x.com") ["x@x.com"] = n := by
  induction n with
  | zero => rfl
  | succ n ih =>
    rw [List.replicate_succ, genEmailDraws, if_pos (by simp), ih]

theorem genEmail_replicate_none (n : Nat) :
    genEmail (List.replicate n "x@x.com") ["x@x.com"] = none := by
  induction n with
  | zero => rfl
  | succ n ih =>
    rw [List.replicate_succ, genEmail, if_pos (by simp)]
    exact ih

/-- C9 as stated is false: no cap bounds the number of retry draws
`_generate_random_email` makes — for every proposed bound there is a run of
consecutive collisions that exceeds it. -/
theorem c9_no_retry_cap_counterexample :
    ¬ ∃ k : Nat, ∀ oracle used : List String, genEmailDraws oracle used ≤ k := by
  rintro ⟨k, hk⟩
  have h := hk (List.replicate (k + 1) "x@x.com") ["x@x.com"]
  rw [genEmailDraws_replicate] at h
  omega

/-- C9 amended: the collision retry of `_generate_random_email` is uncapped
and never widens its randomness source — `n` consecutive colliding draws
produce `n` recursive draws and no return value, so termination relies
solely on the random source eventually producing an unused address. -/
theorem c9_uncapped_recursion (n : Nat) :
    genEmailDraws (List.replicate n "x@x.com") ["x@x.com"] = n ∧
    genEmail (List.replicate n "x@x.com") ["x@x.com"] = none :=
  ⟨genEmailDraws_replicate n, genEmail_replicate_none n⟩

/-! ## Proxy rotation (`_get_next_proxy`) and per-attempt request build -/

structure ProxyDict where
  http : String
  https : String
deriving DecidableEq

/-- `_get_next_proxy()`: advance `current_proxy_index` round-robin and
return the proxy at the new index as `{"http": url, "https": url}`; `None`
when the list is empty. -/
def getNextProxy (ps : List String) (idx : Nat) : Option ProxyDict × Nat :=
  if ps.isEmpty then (none, idx)
  else
    let idx' := (idx + 1) % ps.length
    (some ⟨ps.getD idx' "", ps.getD idx' ""⟩, idx')

/-- The keyword arguments `_make_request` passes to `session.post` (source
lines 316-325).  The lines that would attach the fetched proxy as
`session_kwargs["proxies"]` (322-324) are commented out in the source, so
the `proxies` component is always `none` (direct connection). -/
structure SessionKwargs where
  userAgent : String
  data : String
  timeout : Nat
  proxies : Option ProxyDict
deriving DecidableEq

/-- Per-attempt request preparation in `_make_request`: refresh the user
agent, fetch the next proxy, and build `session_kwargs`.  Returns the
kwargs, the advanced rotation index, and the proxy that was fetched (and
then left unused). -/
def prepareAttempt (ps : List String) (idx : Nat) (ua payload : String) :
    SessionKwargs × Nat × Option ProxyDict :=
  let p := getNextProxy ps idx
  (⟨ua, payload, 30, none⟩, p.2, p.1)

/-- C1 as stated is false: with two proxies loaded, the attempt fetches the
next proxy from the rotator but the built `session_kwargs` carries no
proxies, so the POST is not issued through the fetched proxy. -/
theorem c1_proxy_counterexample :
    (prepareAttempt ["p1", "p2"] 0 "ua" "payload").1.proxies = none ∧
    (prepareAttempt ["p1", "p2"] 0 "ua" "payload").2.2 = some ⟨"p2", "p2"⟩ ∧
    (prepareAttempt ["p1", "p2"] 0 "ua" "payload").1.proxies
      ≠ (prepareAttempt ["p1", "p2"] 0 "ua" "payload").2.2 := by
  refine ⟨rfl, rfl, ?_⟩
  decide

theorem mod_succ_ne (a n : Nat) (h : 2 ≤ n) : a % n ≠ (a + 1) % n := by
  have hn : 0 < n := by omega
  have hj : a % n < n := Nat.mod_lt _ hn
  rw [Nat.add_mod a 1 n, Nat.mod_eq_of_lt (show 1 < n by omega)]
  by_cases hc : a % n + 1 = n
  · rw [hc, Nat.mod_self]
    omega
  · have hlt : a % n + 1 < n := by omega
    rw [Nat.mod_eq_of_lt hlt]
    omega

/-- C1 amended: each attempt fetches a proxy (and with at least two proxies
loaded consecutive attempts advance to different rotation positions), but
the fetched proxy is never attached to the request — every attempt's
`session_kwargs` has no proxies, so all attempts use the same direct
egress. -/
theorem c1_proxy_unused (ps : List String) (idx : Nat) (ua payload : String)
    (h : 2 ≤ ps.length) :
    (prepareAttempt ps idx ua payload).1.proxies = none ∧
    (prepareAttempt ps ((prepareAttempt ps idx ua payload).2.1) ua payload).1.proxies
      = none ∧
    ((getNextProxy ps idx).1).isSome ∧
    (getNextProxy ps idx).2 ≠ (getNextProxy ps (getNextProxy ps idx).2).2 := by
  have hne : ps.isEmpty = false := by
    cases ps with
    | nil => simp at h
    | cons a tl => rfl
  refine ⟨rfl, rfl, ?_, ?_⟩
  · simp [getNextProxy, hne]
  · have hg1 : (getNextProxy ps idx).2 = (idx + 1) % ps.length := by
      simp [getNextProxy, hne]
    have hg2 : (getNextProxy ps ((idx + 1) % ps.length)).2
        = ((idx + 1) % ps.length + 1) % ps.length := by
      simp [getNextProxy, hne]
    rw [hg1, hg2, Nat.mod_add_mod]
    exact mod_succ_ne (idx + 1) ps.length h

/-- Witness for the amended C1 at a concrete two-proxy rotator state. -/
theorem c1_proxy_unused_witness :
    (prepareAttempt ["p1", "p2"] 0 "ua" "payload").1.proxies = none ∧
    (prepareAttempt ["p1", "p2"]
        ((prepareAttempt ["p1", "p2"] 0 "ua" "payload").2.1) "ua" "payload").1.proxies
      = none ∧
    ((getNextProxy ["p1", "p2"] 0).1).isSome ∧
    (getNextProxy ["p1", "p2"] 0).2
      ≠ (getNextProxy ["p1", "p2"] (getNextProxy ["p1", "p2"] 0).2).2 :=
  c1_proxy_unused ["p1", "p2"] 0 "ua" "payload" (by decide)

/-! ## The parser claims -/

theorem extractTotal_path (kvs dkvs pkvs : List (String × Json)) (v : Json)
    (h1 : ((jlookup kvs "success").getD Json.null).truthy = true)
    (h2 : jlookup kvs "data" = some (Json.obj dkvs))
    (h3 : jlookup dkvs "pricing" = some (Json.obj pkvs))
    (h4 : jlookup pkvs "total" = some v) :
    extractTotal kvs = .ok (some v) := by
  unfold extractTotal
  rw [if_pos h1, h2]
  simp [jContains, jIndex, h3, h4]

theorem extractTotal_absent (kvs : List (String × Json))
    (h : ((jlookup kvs "success").getD Json.null).truthy = false
      ∨ jlookup kvs "data" = none
      ∨ (∃ dkvs, jlookup kvs "data" = some (Json.obj dkvs) ∧
          jlookup dkvs "pricing" = none)
      ∨ (∃ dkvs pkvs, jlookup kvs "data" = some (Json.obj dkvs) ∧
          jlookup dkvs "pricing" = some (Json.obj pkvs) ∧
          jlookup pkvs "total" = none)) :
    extractTotal kvs = .ok none := by
  rcases h with h1 | h2 | ⟨dkvs, hd, hp⟩ | ⟨dkvs, pkvs, hd, hp, ht⟩
  · unfold extractTotal
    rw [if_neg (by simp [h1])]
  · by_cases hs : ((jlookup kvs "success").getD Json.null).truthy = true
    · unfold extractTotal
      rw [if_pos hs, h2]
    · unfold extractTotal
      rw [if_neg hs]
  · by_cases hs : ((jlookup kvs "success").getD Json.null).truthy = true
    · unfold extractTotal
      rw [if_pos hs, hd]
      simp [jContains, hp]
    · unfold extractTotal
      rw [if_neg hs]
  · by_cases hs : ((jlookup kvs "success").getD Json.null).truthy = true
    · unfold extractTotal
      rw [if_pos hs, hd]
      simp [jContains, jIndex, hp, ht]
    · unfold extractTotal
      rw [if_neg hs]

/-- C4 as stated is false: a body that decodes to a non-object JSON value
(here the JSON string `"ok"`) makes `_parse_response` raise
`AttributeError` (`data.get` on a non-dict) instead of returning a
result. -/
theorem c4_parse_counterexample :
    parseResponse (.decodable (Json.str "ok")) "78240" 0 = .error .attributeError := by
  rfl

/-- C4 amended: for bodies decoding to a JSON *object*, `_parse_response`
returns the nested `data.pricing.total` when a truthy `success` flag is
present and each step of the path is an object holding the next key;
returns `extracted_value = None` with the decoded payload retained when
the flag is falsy or absent, or a step of the path is absent; and on
decode failure returns `extracted_value = None` with the original text.
(Bodies decoding to non-objects raise instead, see the counterexample.) -/
theorem c4_parse_spec (zip : String) (now : ℚ) :
    (∀ (kvs dkvs pkvs : List (String × Json)) (v : Json),
      ((jlookup kvs "success").getD Json.null).truthy = true →
      jlookup kvs "data" = some (Json.obj dkvs) →
      jlookup dkvs "pricing" = some (Json.obj pkvs) →
      jlookup pkvs "total" = some v →
      parseResponse (.decodable (Json.obj kvs)) zip now
        = .ok ⟨zip, some v, .jsonVal (Json.obj kvs), now⟩) ∧
    (∀ kvs : List (String × Json),
      (((jlookup kvs "success").getD Json.null).truthy = false
        ∨ jlookup kvs "data" = none
        ∨ (∃ dkvs, jlookup kvs "data" = some (Json.obj dkvs) ∧
            jlookup dkvs "pricing" = none)
        ∨ (∃ dkvs pkvs, jlookup kvs "data" = some (Json.obj dkvs) ∧
            jlookup dkvs "pricing" = some (Json.obj pkvs) ∧
            jlookup pkvs "total" = none)) →
      parseResponse (.decodable (Json.obj kvs)) zip now
        = .ok ⟨zip, none, .jsonVal (Json.obj kvs), now⟩) ∧
    (∀ s : String,
      parseResponse (.undecodable s) zip now = .ok ⟨zip, none, .text s, now⟩) := by
  refine ⟨?_, ?_, fun s => rfl⟩
  · intro kvs dkvs pkvs v h1 h2 h3 h4
    have he := extractTotal_path kvs dkvs pkvs v h1 h2 h3 h4
    simp [parseResponse, he]
  · intro kvs h
    have he := extractTotal_absent kvs h
    simp [parseResponse, he]

def body142 : Json :=
  Json.obj [("success", Json.bool true),
            ("data", Json.obj [("pricing", Json.obj [("total", Json.num (142.5 : ℚ))])])]

/-- Witness for the amended C4: the spec's example body yields
`extracted_value = 142.50`. -/
theorem c4_parse_spec_witness :
    parseResponse (.decodable body142) "78240" 0
      = .ok ⟨"78240", some (Json.num (142.5 : ℚ)), .jsonVal body142, 0⟩ :=
  (c4_parse_spec "78240" 0).1
    [("success", Json.bool true),
     ("data", Json.obj [("pricing", Json.obj [("total", Json.num (142.5 : ℚ))])])]
    [("pricing", Json.obj [("total", Json.num (142.5 : ℚ))])]
    [("total", Json.num (142.5 : ℚ))]
    (Json.num (142.5 : ℚ)) rfl rfl rfl rfl

end Scraper
